import Mathlib

/-!
Shallow embedding of `src/ml/hybrid_weather_model.py` (hybrid weather
ensemble model: baseline + ridge + kNN, blended with inverse-RMSE weights,
clipped to a band around the baseline).

Modelling conventions:
* Python floats are modelled by `ℝ`.  A JSON value that `_safe_float`
  would turn into NaN (absent key, `null`, non-numeric) is modelled by
  `none : Option ℝ`; a numeric value by `some x`.  Where a NaN can flow
  through float arithmetic (the current baseline and the kNN fallback in
  the final blend), the arithmetic is lifted to `Option ℝ` with
  NaN-propagation, and Python's `min`/`max` comparison behaviour on NaN
  (`x < NaN` and `NaN < x` are both false) is reproduced by `pyMin`/`pyMax`.
* The global pseudo-random source (`random.seed` / `random.shuffle`) is
  modelled by an abstract state type `σ`, a reseeding map `seedFn : ℤ → σ`
  and a shuffle `shuffleFn : σ → List Record → List Record`.  `run_model`
  reseeds from the payload's seed before its single shuffle, so its result
  ignores the incoming state.
* `feature_keys.index(...)` raises `ValueError` when the key is absent;
  this is the one reachable exception in the core and is modelled by
  `Except.error`.  All other partial Python operations (`coeffs[0]`,
  `row[idx]`, divisions) are guarded by the code itself at every call site
  and are modelled with `getD`-style total access.
-/

namespace HybridWeather

noncomputable section

/-- `_mean`: `sum(values) / len(values) if values else 0.0`. -/
def mean (values : List ℝ) : ℝ :=
  if values.isEmpty then 0 else values.sum / values.length

/-- `_std`: Bessel-corrected sample standard deviation, `0.0` for fewer
than two values. -/
def std (values : List ℝ) : ℝ :=
  if values.length < 2 then 0
  else Real.sqrt ((values.map (fun v => (v - mean values) ^ 2)).sum / ((values.length : ℝ) - 1))

/-- `_rmse`: root-mean-square error, `0.0` for empty `y_true`; the
pairing truncates to the shorter list exactly like Python `zip`. -/
def rmse (y_true y_pred : List ℝ) : ℝ :=
  if y_true.isEmpty then 0
  else Real.sqrt (((y_true.zip y_pred).map (fun p => (p.1 - p.2) ^ 2)).sum / (y_true.length : ℝ))

/-- Column `j` of a row-major matrix (`[row[j] for row in X]`). -/
def colOf (X : List (List ℝ)) (j : ℕ) : List ℝ :=
  X.map (fun row => row.getD j 0)

/-- `_standardize`: per-column z-scoring; a zero standard deviation is
replaced by `1.0`.  Returns the standardized matrix, the means and the
(substituted) standard deviations. -/
def standardize (X : List (List ℝ)) : List (List ℝ) × List ℝ × List ℝ :=
  if X.isEmpty then (X, [], [])
  else
    let cols := (X.headD []).length
    let means := (List.range cols).map (fun j => mean (colOf X j))
    let stds := (List.range cols).map (fun j =>
      let s := std (colOf X j)
      if s = 0 then 1 else s)
    (X.map (fun row => (List.range cols).map (fun j =>
      (row.getD j 0 - means.getD j 0) / stds.getD j 0)), means, stds)

/-- `_apply_standardize`: applies stored means/stds to one vector. -/
def applyStandardize (x means stds : List ℝ) : List ℝ :=
  (List.range x.length).map (fun j => (x.getD j 0 - means.getD j 0) / stds.getD j 0)

/-- Length of the shortest row: Python's `zip(*matrix)` truncates to it. -/
def minRowLen (M : List (List ℝ)) : ℕ :=
  match M with
  | [] => 0
  | r :: rs => rs.foldl (fun acc row => min acc row.length) r.length

/-- `_transpose` via `zip(*matrix)`. -/
def transpose (M : List (List ℝ)) : List (List ℝ) :=
  (List.range (minRowLen M)).map (fun j => M.map (fun row => row.getD j 0))

/-- `_matmul`. -/
def matmul (A B : List (List ℝ)) : List (List ℝ) :=
  let Bt := transpose B
  A.map (fun row => Bt.map (fun col => ((row.zip col).map (fun p => p.1 * p.2)).sum))

/-- `_matvec`; the inner `zip` truncates to the shorter of row and vector. -/
def matvec (A : List (List ℝ)) (v : List ℝ) : List ℝ :=
  A.map (fun row => ((row.zip v).map (fun p => p.1 * p.2)).sum)

/-- Entry `M[r][c]` with total access (all uses are in-bounds). -/
def entry (M : List (List ℝ)) (r c : ℕ) : ℝ :=
  (M.getD r []).getD c 0

/-- Partial-pivot selection for column `i`: the first row index in
`[i, n)` carrying the largest `|M[r][i]|` (Python keeps the incumbent on
ties, i.e. strict improvement only). -/
def pivotRow (M : List (List ℝ)) (n i : ℕ) : ℕ :=
  (List.range' (i + 1) (n - (i + 1))).foldl
    (fun p r => if |entry M r i| > |entry M p i| then r else p) i

/-- Row swap `M[i], M[pivot] = M[pivot], M[i]` (skipped when equal). -/
def swapRows (M : List (List ℝ)) (i p : ℕ) : List (List ℝ) :=
  if p = i then M
  else
    let ri := M.getD i []
    let rp := M.getD p []
    (M.set i rp).set p ri

/-- One elimination round at column `i` with pivot row `p`: swap,
normalize row `i` by the pivot, and subtract `factor *` row `i` from
every other row. -/
def elimStep (M : List (List ℝ)) (i p : ℕ) : List (List ℝ) :=
  let M1 := swapRows M i p
  let div := entry M1 i i
  let Mi := (M1.getD i []).map (fun v => v / div)
  let M2 := M1.set i Mi
  M2.mapIdx (fun r row =>
    if r = i then row
    else
      let factor := row.getD i 0
      (row.zip Mi).map (fun q => q.1 - factor * q.2))

/-- One column of `_gaussian_solve`'s loop, pivot chosen by `pivotRow`. -/
def stepAt (M : List (List ℝ)) (n i : ℕ) : List (List ℝ) :=
  elimStep M i (pivotRow M n i)

/-- The `for i in range(n)` loop of `_gaussian_solve`; `none` models the
early `return [0.0] * n` taken when the selected pivot magnitude is
below `1e-12`. -/
def gaussLoop (n : ℕ) : List (List ℝ) → List ℕ → Option (List (List ℝ))
  | M, [] => some M
  | M, i :: rest =>
    if |entry M (pivotRow M n i) i| < 1e-12 then none
    else gaussLoop n (stepAt M n i) rest

/-- The augmented matrix `[row[:] + [b[i]] ...]`. -/
def augment (A : List (List ℝ)) (b : List ℝ) : List (List ℝ) :=
  (A.zip b).map (fun p => p.1 ++ [p.2])

/-- `_gaussian_solve`: Gaussian elimination with partial pivoting;
returns the all-zero vector when a pivot falls below `1e-12`. -/
def gaussianSolve (A : List (List ℝ)) (b : List ℝ) : List ℝ :=
  let n := A.length
  match gaussLoop n (augment A b) (List.range n) with
  | none => List.replicate n 0
  | some M => M.map (fun row => row.getLastD 0)

/-- The in-place loop `for i in range(len(XtX)): XtX[i][i] += alpha` of
`_ridge_fit`: `alpha` is added to every diagonal entry, the bias
position `(0,0)` included. -/
def regularizeDiag (M : List (List ℝ)) (alpha : ℝ) : List (List ℝ) :=
  M.mapIdx (fun i row => row.mapIdx (fun j v => if j = i then v + alpha else v))

/-- A fitted ridge model.  The unfit Python dict `{"weights": [], "bias": 0.0}`
has no means/stds keys; they are modelled by `[]` and are never read
because `_ridge_predict` bails out first on empty weights. -/
structure RidgeModel where
  weights : List ℝ
  bias : ℝ
  means : List ℝ
  stds : List ℝ

/-- `_ridge_fit`: standardize, prepend the constant-1 bias column, form
`XᵗX` with `alpha` added on the whole diagonal, solve the normal
equations.  `coeffs[0]` / `coeffs[1:]` become `headD 0` / `tail`. -/
def ridgeFit (X : List (List ℝ)) (y : List ℝ) (alpha : ℝ) : RidgeModel :=
  if X.isEmpty then ⟨[], 0, [], []⟩
  else
    let S := standardize X
    let Xb := S.1.map (fun row => 1 :: row)
    let Xt := transpose Xb
    let XtX := regularizeDiag (matmul Xt Xb) alpha
    let Xty := matvec Xt y
    let coeffs := gaussianSolve XtX Xty
    ⟨coeffs.tail, coeffs.headD 0, S.2.1, S.2.2⟩

/-- `_ridge_predict`: `none` models the `float("nan")` returned for a
model with empty weights. -/
def ridgePredict (m : RidgeModel) (x : List ℝ) : Option ℝ :=
  if m.weights.isEmpty then none
  else some (m.bias + ((m.weights.zip (applyStandardize x m.means m.stds)).map
    (fun p => p.1 * p.2)).sum)

/-- Euclidean distance over the zip-truncated pairing of coordinates. -/
def euclid (a b : List ℝ) : ℝ :=
  Real.sqrt (((a.zip b).map (fun p => (p.1 - p.2) ^ 2)).sum)

/-- `_knn_predict`: `none` models the `float("nan")` for an empty
reference pool; otherwise distances are sorted (stably, preserving input
order on ties, as Python's `sort` does), `k` is clamped to
`[1, len(distances)]` and the nearest targets are averaged. -/
def knnPredict (train_X : List (List ℝ)) (train_y : List ℝ) (x : List ℝ) (k : ℤ) :
    Option ℝ :=
  if train_X.isEmpty then none
  else
    let distances := (train_X.zip train_y).map (fun p => (euclid p.1 x, p.2))
    let sorted := distances.mergeSort (fun a b => decide (a.1 ≤ b.1))
    let kk := max 1 (min k (distances.length : ℤ))
    some (mean ((sorted.take kk.toNat).map Prod.snd))

/-- The ensemble weight triple `{baseline, ridge, knn}`. -/
structure Weights where
  baseline : ℝ
  ridge : ℝ
  knn : ℝ

/-- `_calc_weights`: each RMSE is floored at `1e-6`, weights are the
normalized inverses. -/
def calcWeights (y_true base_pred ridge_pred knn_pred : List ℝ) : Weights :=
  let rmse_base := rmse y_true base_pred
  let rmse_ridge := rmse y_true ridge_pred
  let rmse_knn := rmse y_true knn_pred
  let rb := if rmse_base > 1e-6 then rmse_base else 1e-6
  let rr := if rmse_ridge > 1e-6 then rmse_ridge else 1e-6
  let rk := if rmse_knn > 1e-6 then rmse_knn else 1e-6
  let total := 1 / rb + 1 / rr + 1 / rk
  ⟨(1 / rb) / total, (1 / rr) / total, (1 / rk) / total⟩

/-- One historical record: named features plus the two targets; `none`
is a missing / null / non-numeric value. -/
structure Record where
  features : List (String × Option ℝ)
  target_high : Option ℝ
  target_low : Option ℝ

/-- `_safe_float(features.get(k))`: absent key and non-numeric value
both collapse to `none` (Python NaN). -/
def getFeat (features : List (String × Option ℝ)) (k : String) : Option ℝ :=
  (List.lookup k features).join

/-- `sample.get(target_key)` for the two target keys used by the code. -/
def getTarget (s : Record) (key : String) : Option ℝ :=
  if key = "target_high" then s.target_high
  else if key = "target_low" then s.target_low
  else none

/-- One iteration of `_prepare_matrix`'s loop: the feature row in
`feature_keys` order, dropped (`none`) when any feature or the target is
missing/non-numeric. -/
def sampleRow (s : Record) (keys : List String) (target_key : String) :
    Option (List ℝ × ℝ) :=
  let row := keys.map (fun k => getFeat s.features k)
  if row.any Option.isNone then none
  else
    match getTarget s target_key with
    | none => none
    | some t => some (row.map (fun o => o.getD 0), t)

/-- `_prepare_matrix`: parallel feature matrix and target vector of the
surviving records, order preserved. -/
def prepareMatrix (samples : List Record) (keys : List String) (target_key : String) :
    List (List ℝ) × List ℝ :=
  let pairs := samples.filterMap (fun s => sampleRow s keys target_key)
  (pairs.map Prod.fst, pairs.map Prod.snd)

/-- Python `int()` on a float: truncation toward zero. -/
def truncInt (x : ℝ) : ℤ :=
  if x < 0 then -⌊-x⌋ else ⌊x⌋

/-- `_split_data`, with the already-seeded shuffle passed explicitly:
shuffle a copy, keep the first `max(1, int(n * (1 - split)))` records
for training and the rest for calibration. -/
def splitData (shuffle : List Record → List Record) (data : List Record) (split : ℝ) :
    List Record × List Record :=
  if data.isEmpty then ([], [])
  else
    let dc := shuffle data
    let cut := max 1 (truncInt ((dc.length : ℝ) * (1 - split)))
    (dc.take cut.toNat, dc.drop cut.toNat)

/-- `_clip` on genuine numbers: `max(lower, min(upper, value))`. -/
def clip (value baseline clip_delta : ℝ) : ℝ :=
  max (baseline - clip_delta) (min (baseline + clip_delta) value)

/-- Python `min(a, b)` (`b if b < a else a`) on possibly-NaN floats:
every comparison against NaN is false. -/
def pyMin (a b : Option ℝ) : Option ℝ :=
  match a, b with
  | none, _ => none
  | some x, none => some x
  | some x, some y => some (if y < x then y else x)

/-- Python `max(a, b)` (`b if b > a else a`) on possibly-NaN floats. -/
def pyMax (a b : Option ℝ) : Option ℝ :=
  match a, b with
  | none, _ => none
  | some x, none => some x
  | some x, some y => some (if x < y then y else x)

/-- `_clip` lifted to possibly-NaN value and baseline (the delta is a
config float, always a number). -/
def clipV (value baseline : Option ℝ) (clip_delta : ℝ) : Option ℝ :=
  pyMax (baseline.map (fun b => b - clip_delta))
    (pyMin (baseline.map (fun b => b + clip_delta)) value)

/-- The blend `w0*baseline + w1*ridge + w2*knn`; NaN in any predictor
propagates (IEEE: `0 * NaN` is still NaN). -/
def blend (w : Weights) (b r k : Option ℝ) : Option ℝ :=
  match b, r, k with
  | some bv, some rv, some kv => some (w.baseline * bv + w.ridge * rv + w.knn * kv)
  | _, _, _ => none

/-- The typed, default-completed `config` object of the request. -/
structure Config where
  ridge_alpha : ℝ
  knn_k : ℤ
  min_samples : ℤ
  calibration_split : ℝ
  clip_delta : ℝ
  sigma_floor : ℝ
  seed : ℤ
  sigma_fallback : Option ℝ

/-- The request payload. -/
structure Payload where
  config : Config
  training_data : List Record
  features : List (String × Option ℝ)
  feature_keys : List String

/-- The `model_info` dict; keys absent in a branch are `none`. -/
structure ModelInfo where
  status : String
  samples : Option ℕ
  weights_high : Option Weights
  weights_low : Option Weights
  ridge_alpha : Option ℝ
  knn_k : Option ℤ

/-- The response. -/
structure ModelResult where
  forecast_high : Option ℝ
  forecast_low : Option ℝ
  sigma_high : Option ℝ
  sigma_low : Option ℝ
  model_info : ModelInfo

/-- The default nine-name `feature_keys` list. -/
def defaultFeatureKeys : List String :=
  ["baseline_high", "baseline_low", "spread_high", "spread_low", "lead_days",
   "day_of_year_sin", "day_of_year_cos", "lat", "lon"]

/-- The shared shape of the three fallback returns: raw baseline
features as forecasts, `sigma_fallback` as both sigmas. -/
def fallbackResult (features : List (String × Option ℝ)) (config : Config)
    (status : String) (samples : Option ℕ) : ModelResult :=
  ⟨getFeat features "baseline_high", getFeat features "baseline_low",
   config.sigma_fallback, config.sigma_fallback,
   ⟨status, samples, none, none, none, none⟩⟩

/-- Lines 259-338 of `run_model`: calibration predictions, ensemble
weights, current-vector validity check, blend, clip and sigma estimate.
`n_train` is `len(X_train)` (only reported in `model_info`);
`baseline_high`/`baseline_low` are the calibration baseline columns
extracted at lines 256-257 by the caller. -/
def blendStage (config : Config) (feature_keys : List String)
    (features : List (String × Option ℝ)) (n_train : ℕ)
    (model_high model_low : RidgeModel) (X_calib : List (List ℝ))
    (y_high_calib y_low_calib : List ℝ) (X_calib_std : List (List ℝ))
    (baseline_high baseline_low : List ℝ) : ModelResult :=
  let ridge_high := X_calib.map (fun x => (ridgePredict model_high x).getD 0)
  let ridge_low := X_calib.map (fun x => (ridgePredict model_low x).getD 0)
  let knn_high := X_calib.map (fun x =>
    (knnPredict X_calib_std y_high_calib
      (applyStandardize x model_high.means model_high.stds) config.knn_k).getD 0)
  let knn_low := X_calib.map (fun x =>
    (knnPredict X_calib_std y_low_calib
      (applyStandardize x model_low.means model_low.stds) config.knn_k).getD 0)
  let weights_high := if y_high_calib.isEmpty then ⟨0.5, 0.3, 0.2⟩
    else calcWeights y_high_calib baseline_high ridge_high knn_high
  let weights_low := if y_low_calib.isEmpty then ⟨0.5, 0.3, 0.2⟩
    else calcWeights y_low_calib baseline_low ridge_low knn_low
  let x_current := feature_keys.map (fun k => getFeat features k)
  if x_current.any Option.isNone then
    fallbackResult features config "invalid_features" none
  else
    let xc := x_current.map (fun o => o.getD 0)
    let baseline_current_high := getFeat features "baseline_high"
    let baseline_current_low := getFeat features "baseline_low"
    let ridge_pred_high := ridgePredict model_high xc
    let ridge_pred_low := ridgePredict model_low xc
    let x_std_high := applyStandardize xc model_high.means model_high.stds
    let x_std_low := applyStandardize xc model_low.means model_low.stds
    let knn_pred_high := if X_calib_std.isEmpty then baseline_current_high
      else knnPredict X_calib_std y_high_calib x_std_high config.knn_k
    let knn_pred_low := if X_calib_std.isEmpty then baseline_current_low
      else knnPredict X_calib_std y_low_calib x_std_low config.knn_k
    let blended_high := clipV (blend weights_high baseline_current_high ridge_pred_high knn_pred_high)
      baseline_current_high config.clip_delta
    let blended_low := clipV (blend weights_low baseline_current_low ridge_pred_low knn_pred_low)
      baseline_current_low config.clip_delta
    let ensemble_high := (baseline_high.zip (ridge_high.zip knn_high)).map (fun p =>
      weights_high.baseline * p.1 + weights_high.ridge * p.2.1 + weights_high.knn * p.2.2)
    let ensemble_low := (baseline_low.zip (ridge_low.zip knn_low)).map (fun p =>
      weights_low.baseline * p.1 + weights_low.ridge * p.2.1 + weights_low.knn * p.2.2)
    let residuals_high := (y_high_calib.zip ensemble_high).map (fun p => p.1 - p.2)
    let residuals_low := (y_low_calib.zip ensemble_low).map (fun p => p.1 - p.2)
    ⟨blended_high, blended_low,
     some (max (std residuals_high) config.sigma_floor),
     some (max (std residuals_low) config.sigma_floor),
     ⟨"ok", some n_train, some weights_high, some weights_low,
      some config.ridge_alpha, some config.knn_k⟩⟩

/-- Lines 230-338 of `run_model`, from the train/calibration split on,
taking the already-seeded shuffle.  `Except.error` models the
`ValueError` raised by `feature_keys.index` when `X_calib` is non-empty
and a baseline key is absent from `feature_keys`; Python evaluates those
two lookups before the `invalid_features` check inside `blendStage`. -/
def pipeline (shuffle : List Record → List Record) (config : Config)
    (feature_keys : List String) (features : List (String × Option ℝ))
    (training_data : List Record) : Except String ModelResult :=
  let ts := splitData shuffle training_data config.calibration_split
  let train_set := ts.1
  let calib_set := if ts.2.isEmpty then ts.1 else ts.2
  let PH := prepareMatrix train_set feature_keys "target_high"
  let X_train := PH.1
  let y_high_train := PH.2
  let y_low_train := (prepareMatrix train_set feature_keys "target_low").2
  if X_train.isEmpty ∨ (y_high_train.length : ℤ) < config.min_samples then
    .ok (fallbackResult features config "training_filtered" (some X_train.length))
  else
    let model_high := ridgeFit X_train y_high_train config.ridge_alpha
    let model_low := ridgeFit X_train y_low_train config.ridge_alpha
    let CH := prepareMatrix calib_set feature_keys "target_high"
    let X_calib := CH.1
    let y_high_calib := CH.2
    let y_low_calib := (prepareMatrix calib_set feature_keys "target_low").2
    let X_calib_std := X_calib.map (fun x => applyStandardize x model_high.means model_high.stds)
    if X_calib.isEmpty then
      .ok (blendStage config feature_keys features X_train.length model_high model_low
        X_calib y_high_calib y_low_calib X_calib_std [] [])
    else
      match feature_keys.findIdx? (· == "baseline_high"),
            feature_keys.findIdx? (· == "baseline_low") with
      | some ih, some il =>
        .ok (blendStage config feature_keys features X_train.length model_high model_low
          X_calib y_high_calib y_low_calib X_calib_std
          (X_calib.map (fun row => row.getD ih 0))
          (X_calib.map (fun row => row.getD il 0)))
      | _, _ => .error "ValueError: baseline key not in feature_keys"

/-- `run_model`.  `_g` is the global RNG state at entry; `random.seed(seed)`
overwrites it before the only use of randomness, so the body depends on
the randomness only through `shuffleFn (seedFn seed)`. -/
def runModelG {σ : Type} (seedFn : ℤ → σ) (shuffleFn : σ → List Record → List Record)
    (_g : σ) (p : Payload) : Except String ModelResult :=
  let config := p.config
  let feature_keys := if p.feature_keys.isEmpty then defaultFeatureKeys else p.feature_keys
  if (p.training_data.length : ℤ) < config.min_samples then
    .ok (fallbackResult p.features config "insufficient_training_data"
      (some p.training_data.length))
  else
    pipeline (shuffleFn (seedFn config.seed)) config feature_keys p.features p.training_data

/-- `run_model` instantiated with a trivial random source whose shuffle
is the identity permutation; used to evaluate concrete payloads. -/
def runModelId (p : Payload) : Except String ModelResult :=
  runModelG (fun _ => ()) (fun _ l => l) () p

/-- The claim-C7 reading of ridge regularization, stated for comparison
with `regularizeDiag`: `alpha` added on the diagonal except at the bias
term's own position `(0,0)`. -/
def regularizeDiagSkipBias (M : List (List ℝ)) (alpha : ℝ) : List (List ℝ) :=
  M.mapIdx (fun i row => row.mapIdx (fun j v => if j = i ∧ i ≠ 0 then v + alpha else v))

/-- `_ridge_fit` altered to use the claim-C7 regularization
(`regularizeDiagSkipBias`); compared against `ridgeFit` to show the two
disagree observably. -/
def ridgeFitSkipBias (X : List (List ℝ)) (y : List ℝ) (alpha : ℝ) : RidgeModel :=
  if X.isEmpty then ⟨[], 0, [], []⟩
  else
    let S := standardize X
    let Xb := S.1.map (fun row => 1 :: row)
    let Xt := transpose Xb
    let XtX := regularizeDiagSkipBias (matmul Xt Xb) alpha
    let Xty := matvec Xt y
    let coeffs := gaussianSolve XtX Xty
    ⟨coeffs.tail, coeffs.headD 0, S.2.1, S.2.2⟩

/-- The elimination state after processing the columns in `cols`. -/
def statesFold (n : ℕ) (M : List (List ℝ)) (cols : List ℕ) : List (List ℝ) :=
  cols.foldl (fun acc i => stepAt acc n i) M

/-- All pivots along `cols` pass the `1e-12` singularity test. -/
def pivotOkAlong (n : ℕ) : List (List ℝ) → List ℕ → Prop
  | _, [] => True
  | M, i :: rest =>
    ¬ (|entry M (pivotRow M n i) i| < 1e-12) ∧ pivotOkAlong n (stepAt M n i) rest

/-- The spec's own §8 end-to-end example: one training record over the
single feature key `"a"`, `min_samples = 1`, `calibration_split = 0`. -/
def c1Record : Record := ⟨[("a", some 1)], some 10, some 0⟩

/-- Payload of the spec's §8 single-record example (`feature_keys = ["a"]`). -/
def c1Payload : Payload :=
  ⟨⟨1, 7, 1, 0, 12, 3 / 2, 42, none⟩, [c1Record],
   [("a", some 1), ("baseline_high", some 10), ("baseline_low", some 0)], ["a"]⟩

/-- Empty training data with `sigma_fallback = 0.1` below
`sigma_floor = 1.5`. -/
def c5Payload : Payload :=
  ⟨⟨1, 7, 25, 1 / 5, 12, 3 / 2, 42, some (1 / 10)⟩, [],
   [("baseline_high", some 20), ("baseline_low", some 10)], []⟩

/-- A record whose feature and both targets are numeric (all zero). -/
def okRecordA : Record := ⟨[("a", some 0)], some 0, some 0⟩

/-- A record with numeric feature but both targets missing: it survives
the split into the calibration set and is then filtered out, leaving the
calibration matrix empty. -/
def okRecordB : Record := ⟨[("a", some 0)], none, none⟩

/-- A payload that runs the full pipeline to the `ok` status: two
records, `calibration_split = 0.5` puts `okRecordB` alone into the
calibration set where it is filtered out. -/
def okPayload : Payload :=
  ⟨⟨1, 7, 1, 1 / 2, 12, 3 / 2, 42, none⟩, [okRecordA, okRecordB],
   [("a", some 0), ("baseline_high", some 0), ("baseline_low", some 0)], ["a"]⟩

/-- A record with a numeric feature and numeric `target_high` but a
missing `target_low`. -/
def c10Record : Record := ⟨[("a", some 1)], some 10, none⟩

/-- The fixed fallback weighting used when the calibration target vector
is empty. -/
def okWeights : Weights := ⟨0.5, 0.3, 0.2⟩

/-- The result `run_model` produces on `okPayload`. -/
def okResult : ModelResult :=
  ⟨some 0, some 0, some (3 / 2), some (3 / 2),
   ⟨"ok", some 1, some okWeights, some okWeights, some 1, some 7⟩⟩

end

/-! ### Theorems -/

/-- `getFeat` on the empty feature mapping. -/
@[simp]
theorem getFeat_nil (k : String) : getFeat [] k = none := rfl

/-- `getFeat` steps through an association-list cell. -/
@[simp]
theorem getFeat_cons (k k' : String) (v : Option ℝ) (rest : List (String × Option ℝ)) :
    getFeat ((k', v) :: rest) k = if k = k' then v else getFeat rest k := by
  simp only [getFeat, List.lookup_cons]
  by_cases h : k = k'
  · simp [h]
  · have hb : (k == k') = false := by simp [h]
    simp [hb, h]

/-- Each RMSE value floored at `1e-6` is strictly positive. -/
theorem floored_pos (x : ℝ) : (0 : ℝ) < if x > 1e-6 then x else 1e-6 := by
  split
  · linarith
  · norm_num

/-- Claim C2: for non-empty calibration inputs, the weight triple
returned by `_calc_weights` is componentwise non-negative and sums to
`1.0` within `1e-9`. -/
theorem calcWeights_nonneg_sum_one (y_true base_pred ridge_pred knn_pred : List ℝ)
    (hy : y_true ≠ []) (hb : base_pred ≠ []) (hr : ridge_pred ≠ []) (hk : knn_pred ≠ []) :
    0 ≤ (calcWeights y_true base_pred ridge_pred knn_pred).baseline ∧
    0 ≤ (calcWeights y_true base_pred ridge_pred knn_pred).ridge ∧
    0 ≤ (calcWeights y_true base_pred ridge_pred knn_pred).knn ∧
    |(calcWeights y_true base_pred ridge_pred knn_pred).baseline +
      (calcWeights y_true base_pred ridge_pred knn_pred).ridge +
      (calcWeights y_true base_pred ridge_pred knn_pred).knn - 1| ≤ 1e-9 := by
  have key : ∀ a b c : ℝ, 0 < a → 0 < b → 0 < c →
      0 ≤ (1 / a) / (1 / a + 1 / b + 1 / c) ∧
      0 ≤ (1 / b) / (1 / a + 1 / b + 1 / c) ∧
      0 ≤ (1 / c) / (1 / a + 1 / b + 1 / c) ∧
      |(1 / a) / (1 / a + 1 / b + 1 / c) + (1 / b) / (1 / a + 1 / b + 1 / c) +
        (1 / c) / (1 / a + 1 / b + 1 / c) - 1| ≤ 1e-9 := by
    intro a b c ha hb hc
    have htot : 0 < 1 / a + 1 / b + 1 / c := by positivity
    refine ⟨by positivity, by positivity, by positivity, ?_⟩
    rw [div_add_div_same, div_add_div_same, div_self htot.ne']
    norm_num
  simp only [calcWeights]
  exact key _ _ _ (floored_pos _) (floored_pos _) (floored_pos _)

/-- Witness for C2 at concrete non-empty singleton inputs. -/
theorem calcWeights_nonneg_sum_one_witness :
    ([1] : List ℝ) ≠ [] ∧
    0 ≤ (calcWeights [1] [1] [1] [1]).baseline ∧
    0 ≤ (calcWeights [1] [1] [1] [1]).ridge ∧
    0 ≤ (calcWeights [1] [1] [1] [1]).knn ∧
    |(calcWeights [1] [1] [1] [1]).baseline + (calcWeights [1] [1] [1] [1]).ridge +
      (calcWeights [1] [1] [1] [1]).knn - 1| ≤ 1e-9 :=
  ⟨by simp, calcWeights_nonneg_sum_one [1] [1] [1] [1] (by simp) (by simp) (by simp) (by simp)⟩

/-- Claim C6: the result of `run_model` does not depend on the global
random state at entry — `random.seed(payload seed)` overwrites it before
the single shuffle, so two invocations on the identical payload agree no
matter what state the shared random source was left in. -/
theorem runModel_deterministic {σ : Type} (seedFn : ℤ → σ)
    (shuffleFn : σ → List Record → List Record) (g₁ g₂ : σ) (p : Payload) :
    runModelG seedFn shuffleFn g₁ p = runModelG seedFn shuffleFn g₂ p := rfl

/-- Claim C4: below `min_samples` the status is
`insufficient_training_data` and the forecasts are the payload's raw
baseline feature values, unchanged. -/
theorem insufficient_data_fallback {σ : Type} (seedFn : ℤ → σ)
    (shuffleFn : σ → List Record → List Record) (g : σ) (p : Payload)
    (h : (p.training_data.length : ℤ) < p.config.min_samples) :
    ∃ r, runModelG seedFn shuffleFn g p = .ok r ∧
      r.model_info.status = "insufficient_training_data" ∧
      r.forecast_high = getFeat p.features "baseline_high" ∧
      r.forecast_low = getFeat p.features "baseline_low" := by
  refine ⟨fallbackResult p.features p.config "insufficient_training_data"
    (some p.training_data.length), ?_, rfl, rfl, rfl⟩
  simp only [runModelG]
  rw [if_pos h]

/-- Witness for C4: the empty-training payload `c5Payload`
(`min_samples = 25`). -/
theorem insufficient_data_fallback_witness :
    ((c5Payload.training_data.length : ℤ) < c5Payload.config.min_samples) ∧
    ∃ r, runModelG (fun _ : ℤ => ()) (fun _ l => l) () c5Payload = .ok r ∧
      r.model_info.status = "insufficient_training_data" ∧
      r.forecast_high = getFeat c5Payload.features "baseline_high" ∧
      r.forecast_low = getFeat c5Payload.features "baseline_low" :=
  ⟨by norm_num [c5Payload],
   insufficient_data_fallback (fun _ : ℤ => ()) (fun _ l => l) () c5Payload
     (by norm_num [c5Payload])⟩

/-- Claim C1 (refuted by evaluation): on the spec's own §8 end-to-end
example — a schema-conforming payload with `feature_keys = ["a"]`,
`min_samples = 1`, `calibration_split = 0` — `run_model` does not return
a structured result: `feature_keys.index("baseline_high")` (line 256)
raises `ValueError` because the calibration matrix is non-empty and
`"baseline_high"` is not among the feature keys. -/
theorem runModel_raises_on_missing_baseline_key :
    runModelId c1Payload = .error "ValueError: baseline key not in feature_keys" := by
  have h1 : splitData (fun l => l) [c1Record] 0 = ([c1Record], []) := by
    simp [splitData, truncInt]
  have h2 : prepareMatrix [c1Record] ["a"] "target_high" = ([[1]], [10]) := by
    simp [prepareMatrix, sampleRow, getTarget, c1Record]
  have h3 : prepareMatrix [c1Record] ["a"] "target_low" = ([[1]], [0]) := by
    simp [prepareMatrix, sampleRow, getTarget, c1Record]
  simp [runModelId, runModelG, pipeline, c1Payload, h1, h2, h3, List.findIdx?]

/-- Claim C5 (counterexample): on a payload with empty training data,
`sigma_floor = 1.5` and `sigma_fallback = 0.1`, the returned
`sigma_high`/`sigma_low` are `0.1`, strictly below the configured
`sigma_floor`. -/
theorem sigma_below_floor_counterexample :
    runModelId c5Payload =
      .ok ⟨some 20, some 10, some (1 / 10), some (1 / 10),
        ⟨"insufficient_training_data", some 0, none, none, none, none⟩⟩ ∧
    (1 / 10 : ℝ) < c5Payload.config.sigma_floor := by
  constructor
  · norm_num [runModelId, runModelG, c5Payload, fallbackResult]
    all_goals decide
  · norm_num [c5Payload]

/-- Claim C7 (counterexample): the loop `XtX[i][i] += alpha` does add
`alpha` at the bias position `(0,0)`: on `XᵗX = [[1,0],[0,0]]` with
`alpha = 1` the code produces `[[2,0],[0,1]]`, whereas the claim's
bias-exempt regularization would produce `[[1,0],[0,1]]`, and the two
fits disagree observably on the bias coefficient (`1` versus `2`). -/
theorem ridge_bias_regularized_counterexample :
    regularizeDiag [[1, 0], [0, 0]] 1 = [[2, 0], [0, 1]] ∧
    regularizeDiagSkipBias [[1, 0], [0, 0]] 1 = [[1, 0], [0, 1]] ∧
    regularizeDiag [[1, 0], [0, 0]] 1 ≠ regularizeDiagSkipBias [[1, 0], [0, 0]] 1 ∧
    (ridgeFit [[1]] [2] 1).bias = 1 ∧
    (ridgeFitSkipBias [[1]] [2] 1).bias = 2 ∧
    (1 : ℝ) ≠ 2 := by
  have hs : standardize [[(1 : ℝ)]] = ([[0]], [1], [1]) := by
    norm_num [standardize, colOf, mean, std, List.range_succ]
  have hg : gaussianSolve [[2, 0], [0, 1]] [2, 0] = [1, 0] := by
    norm_num [gaussianSolve, augment, gaussLoop, stepAt, pivotRow, elimStep, swapRows,
      entry, List.range_succ, List.range']
  have hg' : gaussianSolve [[1, 0], [0, 1]] [2, 0] = [2, 0] := by
    norm_num [gaussianSolve, augment, gaussLoop, stepAt, pivotRow, elimStep, swapRows,
      entry, List.range_succ, List.range']
  refine ⟨?_, ?_, ?_, ?_, ?_, by norm_num⟩
  · norm_num [regularizeDiag, List.mapIdx_cons]
  · norm_num [regularizeDiagSkipBias, List.mapIdx_cons]
  · norm_num [regularizeDiag, regularizeDiagSkipBias, List.mapIdx_cons]
  · norm_num [ridgeFit, hs, transpose, minRowLen, matmul, matvec, regularizeDiag,
      List.mapIdx_cons, List.range_succ, hg]
  · norm_num [ridgeFitSkipBias, hs, transpose, minRowLen, matmul, matvec,
      regularizeDiagSkipBias, List.mapIdx_cons, List.range_succ, hg']

/-- Claim C7 (amended): `alpha` is added uniformly to every diagonal
entry of the bias-augmented normal matrix, the bias term's own position
included. -/
theorem regularizeDiag_uniform (M : List (List ℝ)) (alpha : ℝ) (i : ℕ)
    (hi : i < M.length) (hrow : i < (M.getD i []).length) :
    entry (regularizeDiag M alpha) i i = entry M i i + alpha := by
  have hlen : i < (regularizeDiag M alpha).length := by
    simpa [regularizeDiag] using hi
  have h1 : (regularizeDiag M alpha).getD i [] =
      (M.getD i []).mapIdx (fun j v => if j = i then v + alpha else v) := by
    rw [List.getD_eq_getElem _ _ hlen]
    simp only [regularizeDiag, List.getElem_mapIdx]
    rw [List.getD_eq_getElem _ _ hi]
  have hrow' : i < ((M.getD i []).mapIdx (fun j v => if j = i then v + alpha else v)).length := by
    simpa using hrow
  rw [entry, entry, h1, List.getD_eq_getElem _ _ hrow', List.getElem_mapIdx,
    List.getD_eq_getElem _ _ hrow]
  simp

/-- Witness for the amended C7 at the bias position itself. -/
theorem regularizeDiag_uniform_witness :
    (0 < ([[(1 : ℝ)]]).length ∧ 0 < (([[(1 : ℝ)]]).getD 0 []).length) ∧
    entry (regularizeDiag [[(1 : ℝ)]] 1) 0 0 = entry [[(1 : ℝ)]] 0 0 + 1 :=
  ⟨⟨by simp, by simp⟩, regularizeDiag_uniform [[1]] 1 0 (by simp) (by simp)⟩

/-- Splitting `range n` at a column index `i < n`. -/
theorem range_split_at (i n : ℕ) (h : i < n) :
    List.range n = List.range i ++ i :: List.range' (i + 1) (n - (i + 1)) := by
  have key := List.range'_append 0 i (n - i) 1
  simp only [Nat.zero_add, Nat.one_mul] at key
  rw [Nat.sub_add_cancel h.le] at key
  rw [List.range_eq_range', ← key, List.range_eq_range']
  congr 1
  rw [show n - i = (n - (i + 1)) + 1 by omega, List.range'_succ]

/-- If every pivot along the prefix passes the `1e-12` test and the
pivot at the next column fails it, the elimination loop bails out with
`none`. -/
theorem gaussLoop_none_of_fail (n : ℕ) (pre : List ℕ) :
    ∀ (M : List (List ℝ)) (i : ℕ) (post : List ℕ),
    pivotOkAlong n M pre →
    |entry (statesFold n M pre) (pivotRow (statesFold n M pre) n i) i| < 1e-12 →
    gaussLoop n M (pre ++ i :: post) = none := by
  induction pre with
  | nil =>
    intro M i post _ hfail
    simp only [List.nil_append, gaussLoop]
    rw [if_pos (by simpa [statesFold] using hfail)]
  | cons j rest ih =>
    intro M i post hok hfail
    have h1 : gaussLoop n M ((j :: rest) ++ i :: post) =
        gaussLoop n (stepAt M n j) (rest ++ i :: post) := by
      simp only [List.cons_append, gaussLoop, List.append_eq]
      rw [if_neg hok.1]
    rw [h1]
    exact ih (stepAt M n j) i post hok.2 (by simpa [statesFold] using hfail)

/-- Claim C8: whenever an elimination column is reached at which the
largest absolute value among the remaining candidate pivot rows is below
`1e-12`, `_gaussian_solve` returns the all-zero length-`n` vector. -/
theorem gaussianSolve_singular_zero (A : List (List ℝ)) (b : List ℝ) (i : ℕ)
    (hi : i < A.length)
    (hok : pivotOkAlong A.length (augment A b) (List.range i))
    (hfail : |entry (statesFold A.length (augment A b) (List.range i))
      (pivotRow (statesFold A.length (augment A b) (List.range i)) A.length i) i| < 1e-12) :
    gaussianSolve A b = List.replicate A.length 0 := by
  have hnone : gaussLoop A.length (augment A b) (List.range A.length) = none := by
    rw [range_split_at i A.length hi]
    exact gaussLoop_none_of_fail A.length (List.range i) (augment A b) i _ hok hfail
  simp only [gaussianSolve, hnone]

/-- Witness for C8: the singular 1×1 system `[[0]] x = [1]`. -/
theorem gaussianSolve_singular_zero_witness :
    (0 < ([[(0 : ℝ)]]).length ∧
      |entry (statesFold ([[(0 : ℝ)]]).length (augment [[0]] [1]) (List.range 0))
        (pivotRow (statesFold ([[(0 : ℝ)]]).length (augment [[0]] [1]) (List.range 0))
          ([[(0 : ℝ)]]).length 0) 0| < 1e-12) ∧
    gaussianSolve [[(0 : ℝ)]] [1] = List.replicate 1 0 :=
  ⟨⟨by norm_num,
    by norm_num [statesFold, augment, pivotRow, entry, List.range']⟩,
   gaussianSolve_singular_zero [[0]] [1] 0 (by norm_num) trivial
     (by norm_num [statesFold, augment, pivotRow, entry, List.range'])⟩

/-- `_mean` is invariant under permutation of its input. -/
theorem mean_perm {l₁ l₂ : List ℝ} (h : l₁.Perm l₂) : mean l₁ = mean l₂ := by
  unfold mean
  simp only [List.isEmpty_iff_length_eq_zero, h.length_eq, h.sum_eq]

/-- Claim C9: the effective `k` is clamped to `[1, pool size]`, and for
`k` at least the pool size `_knn_predict` returns the arithmetic mean of
all reference targets, independently of the query point. -/
theorem knn_k_ge_pool_mean (train_X : List (List ℝ)) (train_y : List ℝ) (k : ℤ)
    (hX : train_X ≠ []) (hlen : train_y.length = train_X.length) :
    ((1 : ℤ) ≤ max 1 (min k (train_X.length : ℤ)) ∧
      max 1 (min k (train_X.length : ℤ)) ≤ (train_X.length : ℤ)) ∧
    ((train_X.length : ℤ) ≤ k →
      ∀ x, knnPredict train_X train_y x k = some (mean train_y)) := by
  have hpos : 0 < train_X.length := List.length_pos.mpr hX
  constructor
  · exact ⟨le_max_left _ _,
      max_le (by exact_mod_cast hpos) (min_le_right _ _)⟩
  · intro hk x
    have hne : train_X.isEmpty = false := by
      simpa [List.isEmpty_iff] using hX
    unfold knnPredict
    rw [hne]
    simp only [Bool.false_eq_true, if_false]
    have hdlen : ((train_X.zip train_y).map
        (fun p => (euclid p.1 x, p.2))).length = train_X.length := by
      simp [List.length_zip, hlen]
    have hmin : min k ((((train_X.zip train_y).map
        (fun p => (euclid p.1 x, p.2))).length : ℕ) : ℤ) = (train_X.length : ℤ) := by
      rw [hdlen]
      exact min_eq_right hk
    rw [hmin]
    have hmax : max (1 : ℤ) (train_X.length : ℤ) = (train_X.length : ℤ) :=
      max_eq_right (by exact_mod_cast hpos)
    rw [hmax]
    have hsortlen : (((train_X.zip train_y).map
          (fun p => (euclid p.1 x, p.2))).mergeSort
          (fun a b => decide (a.1 ≤ b.1))).length = train_X.length := by
      rw [List.length_mergeSort, hdlen]
    rw [List.take_of_length_le (by rw [hsortlen]; simp)]
    have hperm : ((((train_X.zip train_y).map
          (fun p => (euclid p.1 x, p.2))).mergeSort
          (fun a b => decide (a.1 ≤ b.1))).map Prod.snd).Perm
        (((train_X.zip train_y).map (fun p => (euclid p.1 x, p.2))).map Prod.snd) :=
      (List.mergeSort_perm _ _).map Prod.snd
    rw [mean_perm hperm]
    have hsnd : ((train_X.zip train_y).map
        (fun p => (euclid p.1 x, p.2))).map Prod.snd = train_y := by
      rw [List.map_map]
      have : (Prod.snd ∘ fun p : List ℝ × ℝ => (euclid p.1 x, p.2)) = Prod.snd := rfl
      rw [this]
      exact List.map_snd_zip _ _ (le_of_eq hlen)
    rw [hsnd]

/-- Witness for C9: a one-point pool with `k = 3`. -/
theorem knn_k_ge_pool_mean_witness :
    (([[(0 : ℝ)]] : List (List ℝ)) ≠ [] ∧ ([(5 : ℝ)]).length = ([[(0 : ℝ)]]).length) ∧
    (((1 : ℤ) ≤ max 1 (min 3 (([[(0 : ℝ)]]).length : ℤ)) ∧
      max 1 (min 3 (([[(0 : ℝ)]]).length : ℤ)) ≤ (([[(0 : ℝ)]]).length : ℤ)) ∧
    ((([[(0 : ℝ)]]).length : ℤ) ≤ 3 →
      ∀ x, knnPredict [[(0 : ℝ)]] [5] x 3 = some (mean [5]))) :=
  ⟨⟨by simp, rfl⟩, knn_k_ge_pool_mean [[0]] [5] 3 (by simp) rfl⟩

/-- `zip` ignores any `take` that keeps at least as many elements as the
left list has. -/
theorem zip_take_of_le {α β : Type} :
    ∀ (l : List α) (v : List β) (n : ℕ), l.length ≤ n → l.zip (v.take n) = l.zip v := by
  intro l
  induction l with
  | nil => intro v n _; simp
  | cons a l ih =>
    intro v n h
    cases v with
    | nil => simp
    | cons b v =>
      cases n with
      | zero => simp at h
      | succ m =>
        simp only [List.take_succ_cons, List.zip_cons_cons]
        rw [ih v m (by simpa using h)]

/-- `_matvec` only reads the first `row.length` entries of the vector
(the inner `zip` truncates). -/
theorem matvec_congr_take (A : List (List ℝ)) (v : List ℝ) (n : ℕ)
    (h : ∀ row ∈ A, row.length ≤ n) : matvec A (v.take n) = matvec A v := by
  unfold matvec
  apply List.map_congr_left
  intro row hrow
  rw [zip_take_of_le row v n (h row hrow)]

/-- Every row of `transpose M` has `M.length` entries. -/
theorem transpose_row_len (M : List (List ℝ)) :
    ∀ row ∈ transpose M, row.length = M.length := by
  intro row hrow
  simp only [transpose, List.mem_map] at hrow
  obtain ⟨j, _, rfl⟩ := hrow
  simp

/-- The standardized matrix has as many rows as its input. -/
theorem standardize_fst_length (X : List (List ℝ)) : (standardize X).1.length = X.length := by
  unfold standardize
  split
  · rfl
  · simp

/-- `_ridge_fit` reads only the first `len(X)` targets: the target
vector enters solely through `_matvec`, whose `zip` truncates each row
of `Xᵗ` (all of length `len(X)`) against `y`. -/
theorem ridgeFit_take (X : List (List ℝ)) (y : List ℝ) (alpha : ℝ) :
    ridgeFit X y alpha = ridgeFit X (y.take X.length) alpha := by
  unfold ridgeFit
  by_cases hX : X.isEmpty
  · rw [if_pos hX, if_pos hX]
  · rw [if_neg hX, if_neg hX]
    have hXty : matvec (transpose ((standardize X).1.map (fun row => 1 :: row)))
        (y.take X.length)
        = matvec (transpose ((standardize X).1.map (fun row => 1 :: row))) y := by
      apply matvec_congr_take
      intro row hrow
      rw [transpose_row_len _ row hrow]
      simp [standardize_fst_length]
    simp only [hXty]

/-- Claim C10: a record with valid features and valid `target_high` but
missing `target_low` keeps its row in the `X_train` produced by the
`target_high` filtering pass while the `target_low` pass omits its
target, and `_ridge_fit` pairs rows with targets purely positionally
(zip truncation), so the low model is fit on shifted row–target pairs. -/
theorem low_model_row_target_misalignment (pre post : List Record) (r : Record)
    (keys : List String) (th : ℝ)
    (hfeat : ((keys.map (fun k => getFeat r.features k)).any Option.isNone) = false)
    (hth : r.target_high = some th) (htl : r.target_low = none) :
    (prepareMatrix (pre ++ r :: post) keys "target_high").1 =
      (prepareMatrix pre keys "target_high").1 ++
        ((keys.map (fun k => getFeat r.features k)).map (fun o => o.getD 0)) ::
          (prepareMatrix post keys "target_high").1 ∧
    (prepareMatrix (pre ++ r :: post) keys "target_low").2 =
      (prepareMatrix pre keys "target_low").2 ++
        (prepareMatrix post keys "target_low").2 ∧
    ∀ (X : List (List ℝ)) (y : List ℝ) (alpha : ℝ),
      ridgeFit X y alpha = ridgeFit X (y.take X.length) alpha := by
  have hrowTH : sampleRow r keys "target_high" =
      some ((keys.map (fun k => getFeat r.features k)).map (fun o => o.getD 0), th) := by
    simp [sampleRow, hfeat, getTarget, hth]
  have hrowTL : sampleRow r keys "target_low" = none := by
    simp [sampleRow, hfeat, getTarget, htl]
  refine ⟨?_, ?_, fun X y alpha => ridgeFit_take X y alpha⟩
  · simp [prepareMatrix, List.filterMap_append, List.filterMap_cons, hrowTH]
  · simp [prepareMatrix, List.filterMap_append, List.filterMap_cons, hrowTL]

/-- Witness for C10 on a concrete single-record batch. -/
theorem low_model_row_target_misalignment_witness :
    (((["a"].map (fun k => getFeat c10Record.features k)).any Option.isNone) = false ∧
      c10Record.target_high = some 10 ∧ c10Record.target_low = none) ∧
    ((prepareMatrix ([] ++ c10Record :: []) ["a"] "target_high").1 =
      (prepareMatrix [] ["a"] "target_high").1 ++
        ((["a"].map (fun k => getFeat c10Record.features k)).map (fun o => o.getD 0)) ::
          (prepareMatrix [] ["a"] "target_high").1 ∧
    (prepareMatrix ([] ++ c10Record :: []) ["a"] "target_low").2 =
      (prepareMatrix [] ["a"] "target_low").2 ++
        (prepareMatrix [] ["a"] "target_low").2 ∧
    ∀ (X : List (List ℝ)) (y : List ℝ) (alpha : ℝ),
      ridgeFit X y alpha = ridgeFit X (y.take X.length) alpha) :=
  ⟨⟨by simp [c10Record], rfl, rfl⟩,
   low_model_row_target_misalignment [] [] c10Record ["a"] 10
     (by simp [c10Record]) rfl rfl⟩

/-- A surviving `_prepare_matrix` row has one entry per feature key. -/
theorem sampleRow_fst_length {s : Record} {keys : List String} {tk : String}
    {p : List ℝ × ℝ} (h : sampleRow s keys tk = some p) : p.1.length = keys.length := by
  unfold sampleRow at h
  split at h
  · simp at h
  · by_cases hany : (List.map (fun k => getFeat s.features k) keys).any Option.isNone = true
    · simp [hany] at h
    · simp [hany] at h
      rw [← h]
      simp

/-- Every row of a prepared feature matrix has one entry per key. -/
theorem prepareMatrix_rows_length (samples : List Record) (keys : List String)
    (tk : String) : ∀ row ∈ (prepareMatrix samples keys tk).1, row.length = keys.length := by
  intro row hrow
  simp only [prepareMatrix, List.mem_map] at hrow
  obtain ⟨pair, hpair, rfl⟩ := hrow
  obtain ⟨s, _, hs⟩ := List.mem_filterMap.mp hpair
  exact sampleRow_fst_length hs

/-- Standardized rows keep the width of the first input row. -/
theorem standardize_rows (X : List (List ℝ)) :
    ∀ row ∈ (standardize X).1, row.length = (X.headD []).length := by
  intro row hrow
  unfold standardize at hrow
  split at hrow
  · rename_i hX
    simp [List.isEmpty_iff] at hX
    subst hX
    simp at hrow
  · simp only [List.mem_map] at hrow
    obtain ⟨r, _, rfl⟩ := hrow
    simp

/-- Folding `min` over rows that all have length `m`, starting at `m`. -/
theorem foldl_min_const (m : ℕ) :
    ∀ (rs : List (List ℝ)), (∀ row ∈ rs, row.length = m) →
      rs.foldl (fun acc row => min acc row.length) m = m := by
  intro rs
  induction rs with
  | nil => intro _; rfl
  | cons r rs ih =>
    intro h
    simp only [List.foldl_cons]
    rw [h r (by simp), min_self]
    exact ih (fun row hr => h row (by simp [hr]))

/-- `minRowLen` of a non-empty matrix with uniform row length `m` is `m`. -/
theorem minRowLen_uniform (M : List (List ℝ)) (m : ℕ) (hne : M ≠ [])
    (h : ∀ row ∈ M, row.length = m) : minRowLen M = m := by
  cases M with
  | nil => exact absurd rfl hne
  | cons r rs =>
    have hr : r.length = m := h r (by simp)
    simp only [minRowLen]
    rw [hr]
    exact foldl_min_const m rs (fun row hmem => h row (by simp [hmem]))

/-- `transpose` produces `minRowLen` rows. -/
theorem transpose_length (M : List (List ℝ)) : (transpose M).length = minRowLen M := by
  simp [transpose]

/-- `matmul` produces one row per row of its left factor. -/
theorem matmul_length (A B : List (List ℝ)) : (matmul A B).length = A.length := by
  simp [matmul]

/-- `matvec` produces one entry per row. -/
theorem matvec_length (A : List (List ℝ)) (v : List ℝ) :
    (matvec A v).length = A.length := by
  simp [matvec]

/-- Diagonal regularization preserves the number of rows. -/
theorem regularizeDiag_length (M : List (List ℝ)) (alpha : ℝ) :
    (regularizeDiag M alpha).length = M.length := by
  simp [regularizeDiag]

/-- Row swap preserves the number of rows. -/
theorem swapRows_length (M : List (List ℝ)) (i p : ℕ) :
    (swapRows M i p).length = M.length := by
  unfold swapRows
  split
  · rfl
  · simp

/-- One elimination round preserves the number of rows. -/
theorem elimStep_length (M : List (List ℝ)) (i p : ℕ) :
    (elimStep M i p).length = M.length := by
  unfold elimStep
  simp [swapRows_length]

/-- A completed elimination loop preserves the number of rows. -/
theorem gaussLoop_length (n : ℕ) :
    ∀ (cols : List ℕ) (M M' : List (List ℝ)),
      gaussLoop n M cols = some M' → M'.length = M.length := by
  intro cols
  induction cols with
  | nil =>
    intro M M' h
    simp only [gaussLoop, Option.some.injEq] at h
    rw [← h]
  | cons i rest ih =>
    intro M M' h
    simp only [gaussLoop] at h
    split at h
    · exact absurd h (by simp)
    · rw [ih (stepAt M n i) M' h, stepAt, elimStep_length]

/-- `_gaussian_solve` on a conforming system returns `n` coefficients. -/
theorem gaussianSolve_length (A : List (List ℝ)) (b : List ℝ)
    (hb : b.length = A.length) : (gaussianSolve A b).length = A.length := by
  have haug : (augment A b).length = A.length := by
    simp [augment, List.length_zip, hb]
  unfold gaussianSolve
  cases hM : gaussLoop A.length (augment A b) (List.range A.length) with
  | none => simp [hM]
  | some M =>
    simp [hM, gaussLoop_length A.length (List.range A.length) (augment A b) M hM, haug]

/-- A ridge model fit on a non-empty matrix has one weight per feature
column of the first row. -/
theorem ridgeFit_weights_length (X : List (List ℝ)) (y : List ℝ) (alpha : ℝ)
    (hX : X.isEmpty = false) :
    (ridgeFit X y alpha).weights.length = (X.headD []).length := by
  have hXne : X ≠ [] := fun hh => by simp [hh] at hX
  have hlen0 : 0 < X.length := List.length_pos.mpr hXne
  have hrows : ∀ row ∈ (standardize X).1.map (fun row => (1 : ℝ) :: row),
      row.length = (X.headD []).length + 1 := by
    intro row hrow
    simp only [List.mem_map] at hrow
    obtain ⟨r, hr, rfl⟩ := hrow
    simp [standardize_rows X r hr]
  have hXbne : (standardize X).1.map (fun row => (1 : ℝ) :: row) ≠ [] := by
    intro hh
    rw [List.map_eq_nil_iff] at hh
    have := standardize_fst_length X
    rw [hh] at this
    simp at this
    omega
  have hmrl : minRowLen ((standardize X).1.map (fun row => (1 : ℝ) :: row)) =
      (X.headD []).length + 1 :=
    minRowLen_uniform _ _ hXbne hrows
  simp only [ridgeFit, hX, Bool.false_eq_true, if_false]
  rw [List.length_tail]
  rw [gaussianSolve_length]
  · rw [regularizeDiag_length, matmul_length, transpose_length, hmrl]
    simp
  · rw [matvec_length, regularizeDiag_length, matmul_length]

/-- `headD` of a non-empty list is a member. -/
theorem headD_mem {α : Type} {l : List α} (d : α) (h : l ≠ []) : l.headD d ∈ l := by
  cases l with
  | nil => exact absurd rfl h
  | cons a t => simp

/-- The blend of three genuine numbers is a genuine number. -/
theorem blend_isSome {w : Weights} {b r k : Option ℝ} (hb : b.isSome = true)
    (hr : r.isSome = true) (hk : k.isSome = true) : (blend w b r k).isSome = true := by
  cases b <;> cases r <;> cases k <;> simp_all [blend]

/-- A model with non-empty weights predicts a genuine number. -/
theorem ridgePredict_isSome {m : RidgeModel} (x : List ℝ)
    (hw : m.weights.isEmpty = false) : (ridgePredict m x).isSome = true := by
  simp [ridgePredict, hw]

/-- A non-empty reference pool yields a genuine kNN prediction. -/
theorem knnPredict_isSome {tX : List (List ℝ)} (ty : List ℝ) (x : List ℝ) (k : ℤ)
    (hX : tX.isEmpty = false) : (knnPredict tX ty x k).isSome = true := by
  simp [knnPredict, hX]

/-- On genuine numbers the NaN-aware clip agrees with `_clip`. -/
theorem clipV_some (v b d : ℝ) : clipV (some v) (some b) d = some (clip v b d) := by
  simp only [clipV, pyMin, pyMax, Option.map_some']
  congr 1
  unfold clip
  have h1 : (if v < b + d then v else b + d) = min (b + d) v := by
    split_ifs with h
    · exact (min_eq_right h.le).symm
    · exact (min_eq_left (not_lt.mp h)).symm
  rw [h1]
  split_ifs with h
  · exact (max_eq_right h.le).symm
  · exact (max_eq_left (not_lt.mp h)).symm

/-- `_clip` lands in the closed band around the baseline when the
half-width is non-negative. -/
theorem clip_bounds (v b d : ℝ) (hd : 0 ≤ d) :
    b - d ≤ clip v b d ∧ clip v b d ≤ b + d := by
  unfold clip
  refine ⟨le_max_left _ _, max_le (by linarith) (min_le_left _ _)⟩

/-- `ridgeFit` on a non-empty matrix whose rows are as wide as the
(non-empty) key list yields non-empty weights. -/
theorem ridgeFit_weights_isEmpty_false (X : List (List ℝ)) (y : List ℝ) (alpha : ℝ)
    (keys : List String) (hkeys : keys ≠ []) (hX : X.isEmpty = false)
    (hrows : ∀ row ∈ X, row.length = keys.length) :
    (ridgeFit X y alpha).weights.isEmpty = false := by
  have hXne : X ≠ [] := fun hh => by simp [hh] at hX
  have hhead : (X.headD []).length = keys.length :=
    hrows _ (headD_mem [] hXne)
  have hlen : (ridgeFit X y alpha).weights.length = keys.length := by
    rw [ridgeFit_weights_length X y alpha hX, hhead]
  have : (ridgeFit X y alpha).weights ≠ [] := by
    intro hh
    rw [hh] at hlen
    exact hkeys (List.length_eq_zero.mp hlen.symm)
  simpa [List.isEmpty_iff] using this

/-- `blendStage` either exits with the `invalid_features` fallback or
returns the ok-status record whose forecasts are the clipped blends and
whose sigmas are floored at `sigma_floor`; with non-empty model weights
the blend is a genuine number whenever the current baseline is. -/
theorem blendStage_cases (config : Config) (keys : List String)
    (features : List (String × Option ℝ)) (n : ℕ) (mh ml : RidgeModel)
    (Xc : List (List ℝ)) (yh yl : List ℝ) (Xcs : List (List ℝ)) (bh bl : List ℝ)
    (hwh : mh.weights.isEmpty = false) (hwl : ml.weights.isEmpty = false) :
    blendStage config keys features n mh ml Xc yh yl Xcs bh bl =
      fallbackResult features config "invalid_features" none ∨
    ∃ (wh wl : Weights) (vh vl : Option ℝ) (sh sl : ℝ),
      blendStage config keys features n mh ml Xc yh yl Xcs bh bl =
        ⟨clipV vh (getFeat features "baseline_high") config.clip_delta,
         clipV vl (getFeat features "baseline_low") config.clip_delta,
         some (max sh config.sigma_floor), some (max sl config.sigma_floor),
         ⟨"ok", some n, some wh, some wl, some config.ridge_alpha, some config.knn_k⟩⟩ ∧
      ((getFeat features "baseline_high").isSome = true → vh.isSome = true) ∧
      ((getFeat features "baseline_low").isSome = true → vl.isSome = true) := by
  by_cases hcur : ((keys.map (fun k => getFeat features k)).any Option.isNone) = true
  · left
    simp only [blendStage, hcur, if_true]
  · right
    have hcur' : ((keys.map (fun k => getFeat features k)).any Option.isNone) = false :=
      Bool.not_eq_true _ ▸ (Bool.eq_false_iff.mpr hcur)
    simp only [blendStage, hcur', Bool.false_eq_true, if_false]
    refine ⟨_, _, _, _, _, _, rfl, ?_, ?_⟩
    · intro hb
      apply blend_isSome hb (ridgePredict_isSome _ hwh)
      by_cases hXcs : Xcs.isEmpty = true
      · simpa [hXcs] using hb
      · have : Xcs.isEmpty = false := Bool.eq_false_iff.mpr hXcs
        simp only [this, Bool.false_eq_true, if_false]
        exact knnPredict_isSome _ _ _ this
    · intro hb
      apply blend_isSome hb (ridgePredict_isSome _ hwl)
      by_cases hXcs : Xcs.isEmpty = true
      · simpa [hXcs] using hb
      · have : Xcs.isEmpty = false := Bool.eq_false_iff.mpr hXcs
        simp only [this, Bool.false_eq_true, if_false]
        exact knnPredict_isSome _ _ _ this

/-- Any `ok`-wrapped result of `pipeline` is the `training_filtered`
fallback or a `blendStage` record built from ridge models with non-empty
weights. -/
theorem pipeline_ok_cases (shuffle : List Record → List Record) (config : Config)
    (keys : List String) (features : List (String × Option ℝ))
    (data : List Record) (r : ModelResult) (hkeys : keys ≠ [])
    (hrun : pipeline shuffle config keys features data = .ok r) :
    r.model_info.status = "training_filtered" ∨
    ∃ (n : ℕ) (mh ml : RidgeModel) (Xc : List (List ℝ)) (yh yl : List ℝ)
      (Xcs : List (List ℝ)) (bh bl : List ℝ),
      r = blendStage config keys features n mh ml Xc yh yl Xcs bh bl ∧
      mh.weights.isEmpty = false ∧ ml.weights.isEmpty = false := by
  unfold pipeline at hrun
  set SP := splitData shuffle data config.calibration_split with hSP
  set PH := prepareMatrix SP.1 keys "target_high" with hPH
  set PL := prepareMatrix SP.1 keys "target_low" with hPL
  set CS := (if SP.2.isEmpty = true then SP.1 else SP.2 : List Record) with hCS
  set CH := prepareMatrix CS keys "target_high" with hCH
  set CL := prepareMatrix CS keys "target_low" with hCL
  set MH := ridgeFit PH.1 PH.2 config.ridge_alpha with hMH
  set ML := ridgeFit PH.1 PL.2 config.ridge_alpha with hML
  by_cases h1 : (PH.1.isEmpty = true ∨ (PH.2.length : ℤ) < config.min_samples)
  · rw [if_pos h1] at hrun
    simp only [Except.ok.injEq] at hrun
    left
    rw [← hrun]
    rfl
  · rw [if_neg h1] at hrun
    have hXtr : PH.1.isEmpty = false := by
      rcases Bool.eq_false_or_eq_true PH.1.isEmpty with h | h
      · exact absurd (Or.inl h) h1
      · exact h
    have hwh := ridgeFit_weights_isEmpty_false PH.1 PH.2 config.ridge_alpha keys hkeys hXtr
      (by rw [hPH]; exact prepareMatrix_rows_length _ keys "target_high")
    have hwl := ridgeFit_weights_isEmpty_false PH.1 PL.2 config.ridge_alpha keys hkeys hXtr
      (by rw [hPH]; exact prepareMatrix_rows_length _ keys "target_high")
    rw [← hMH] at hwh
    rw [← hML] at hwl
    right
    by_cases h2 : CH.1.isEmpty = true
    · rw [if_pos h2] at hrun
      simp only [Except.ok.injEq] at hrun
      exact ⟨_, _, _, _, _, _, _, _, _, hrun.symm, hwh, hwl⟩
    · rw [if_neg h2] at hrun
      split at hrun
      · simp only [Except.ok.injEq] at hrun
        exact ⟨_, _, _, _, _, _, _, _, _, hrun.symm, hwh, hwl⟩
      · exact absurd hrun (by simp)

/-- Shape of every `ok`-status result of `run_model`: forecasts are the
NaN-aware clip of some blend against the current baseline features, and
both sigmas are `max`-floored at `sigma_floor`; the blends are genuine
numbers whenever the corresponding baseline feature is. -/
theorem run_ok_shape {σ : Type} (seedFn : ℤ → σ)
    (shuffleFn : σ → List Record → List Record) (g : σ) (p : Payload) (r : ModelResult)
    (hrun : runModelG seedFn shuffleFn g p = .ok r)
    (hok : r.model_info.status = "ok") :
    ∃ (vh vl : Option ℝ) (sh sl : ℝ),
      r.forecast_high = clipV vh (getFeat p.features "baseline_high") p.config.clip_delta ∧
      r.forecast_low = clipV vl (getFeat p.features "baseline_low") p.config.clip_delta ∧
      ((getFeat p.features "baseline_high").isSome = true → vh.isSome = true) ∧
      ((getFeat p.features "baseline_low").isSome = true → vl.isSome = true) ∧
      r.sigma_high = some (max sh p.config.sigma_floor) ∧
      r.sigma_low = some (max sl p.config.sigma_floor) := by
  unfold runModelG at hrun
  dsimp only at hrun
  set keys := (if p.feature_keys.isEmpty = true then defaultFeatureKeys else p.feature_keys :
    List String) with hkeysdef
  have hkeys : keys ≠ [] := by
    rw [hkeysdef]
    split
    · simp [defaultFeatureKeys]
    · rename_i h
      simpa [List.isEmpty_iff] using h
  split at hrun
  · simp only [Except.ok.injEq] at hrun
    rw [← hrun] at hok
    exact absurd hok (by simp [fallbackResult])
  · rcases pipeline_ok_cases _ _ _ _ _ _ hkeys hrun with hfil | hblend
    · rw [hfil] at hok
      exact absurd hok (by simp)
    · obtain ⟨n, mh, ml, Xc, yh, yl, Xcs, bh, bl, hr, hwh, hwl⟩ := hblend
      rcases blendStage_cases p.config keys p.features n mh ml Xc yh yl Xcs bh bl hwh hwl
        with hinv | hokcase
      · rw [hr, hinv] at hok
        exact absurd hok (by simp [fallbackResult])
      · obtain ⟨wh, wl, vh, vl, sh, sl, heq, hvh, hvl⟩ := hokcase
        rw [hr, heq]
        exact ⟨vh, vl, sh, sl, rfl, rfl, hvh, hvl, rfl, rfl⟩

/-- Claim C3: in an `ok`-status result, both clipped blended forecasts
lie in the closed band `[baseline - clip_delta, baseline + clip_delta]`
around the corresponding current baseline feature (the baseline must be
a genuine number for the band to exist, and `clip_delta` is
non-negative as in the schema default `12.0`). -/
theorem blended_forecast_within_clip_band {σ : Type} (seedFn : ℤ → σ)
    (shuffleFn : σ → List Record → List Record) (g : σ) (p : Payload) (r : ModelResult)
    (bh bl : ℝ)
    (hrun : runModelG seedFn shuffleFn g p = .ok r)
    (hok : r.model_info.status = "ok")
    (hd : 0 ≤ p.config.clip_delta)
    (hbh : getFeat p.features "baseline_high" = some bh)
    (hbl : getFeat p.features "baseline_low" = some bl) :
    (∃ fh, r.forecast_high = some fh ∧
      bh - p.config.clip_delta ≤ fh ∧ fh ≤ bh + p.config.clip_delta) ∧
    (∃ fl, r.forecast_low = some fl ∧
      bl - p.config.clip_delta ≤ fl ∧ fl ≤ bl + p.config.clip_delta) := by
  obtain ⟨vh, vl, sh, sl, hfh, hfl, hvh, hvl, _, _⟩ :=
    run_ok_shape seedFn shuffleFn g p r hrun hok
  constructor
  · obtain ⟨v, hv⟩ := Option.isSome_iff_exists.mp (hvh (by rw [hbh]; rfl))
    refine ⟨clip v bh p.config.clip_delta, ?_,
      (clip_bounds v bh _ hd).1, (clip_bounds v bh _ hd).2⟩
    rw [hfh, hbh, hv, clipV_some]
  · obtain ⟨v, hv⟩ := Option.isSome_iff_exists.mp (hvl (by rw [hbl]; rfl))
    refine ⟨clip v bl p.config.clip_delta, ?_,
      (clip_bounds v bl _ hd).1, (clip_bounds v bl _ hd).2⟩
    rw [hfl, hbl, hv, clipV_some]

/-- Claim C5 (amended): in every `ok`-status result both sigmas are
genuine numbers at or above the configured `sigma_floor`. -/
theorem ok_sigma_at_least_floor {σ : Type} (seedFn : ℤ → σ)
    (shuffleFn : σ → List Record → List Record) (g : σ) (p : Payload) (r : ModelResult)
    (hrun : runModelG seedFn shuffleFn g p = .ok r)
    (hok : r.model_info.status = "ok") :
    ∃ sh sl, r.sigma_high = some sh ∧ r.sigma_low = some sl ∧
      p.config.sigma_floor ≤ sh ∧ p.config.sigma_floor ≤ sl := by
  obtain ⟨vh, vl, sh, sl, _, _, _, _, hsh, hsl⟩ :=
    run_ok_shape seedFn shuffleFn g p r hrun hok
  exact ⟨max sh p.config.sigma_floor, max sl p.config.sigma_floor, hsh, hsl,
    le_max_right _ _, le_max_right _ _⟩

/-- Full evaluation of `run_model` on `okPayload` (identity shuffle):
the complete pipeline runs to the `ok` status. -/
theorem runModel_okPayload_eval : runModelId okPayload = .ok okResult := by
  have hsplit : splitData (fun l => l) [okRecordA, okRecordB] (1 / 2) =
      ([okRecordA], [okRecordB]) := by
    norm_num [splitData, truncInt]
  have hPH : prepareMatrix [okRecordA] ["a"] "target_high" = ([[0]], [0]) := by
    simp [prepareMatrix, sampleRow, getTarget, okRecordA]
  have hPL : prepareMatrix [okRecordA] ["a"] "target_low" = ([[0]], [0]) := by
    simp [prepareMatrix, sampleRow, getTarget, okRecordA]
  have hCH : prepareMatrix [okRecordB] ["a"] "target_high" = ([], []) := by
    simp [prepareMatrix, sampleRow, getTarget, okRecordB]
  have hCL : prepareMatrix [okRecordB] ["a"] "target_low" = ([], []) := by
    simp [prepareMatrix, sampleRow, getTarget, okRecordB]
  have hfit : ridgeFit [[0]] [0] 1 = ⟨[0], 0, [0], [1]⟩ := by
    have hs : standardize [[(0 : ℝ)]] = ([[0]], [0], [1]) := by
      norm_num [standardize, colOf, mean, std, List.range_succ]
    have hg : gaussianSolve [[2, 0], [0, 1]] [0, 0] = [0, 0] := by
      norm_num [gaussianSolve, augment, gaussLoop, stepAt, pivotRow, elimStep, swapRows,
        entry, List.range_succ, List.range']
    norm_num [ridgeFit, hs, transpose, minRowLen, matmul, matvec, regularizeDiag,
      List.mapIdx_cons, List.range_succ, hg]
  have hblend :
      blendStage ⟨1, 7, 1, 1 / 2, 12, 3 / 2, 42, none⟩ ["a"]
        [("a", some 0), ("baseline_high", some 0), ("baseline_low", some 0)] 1
        ⟨[0], 0, [0], [1]⟩ ⟨[0], 0, [0], [1]⟩ [] [] [] [] [] [] = okResult := by
    norm_num [blendStage, ridgePredict, applyStandardize, clipV, pyMin, pyMax, blend, clip,
      std, mean, fallbackResult, okResult, okWeights, List.range_succ]
  norm_num [runModelId, runModelG, pipeline, okPayload, hsplit, hPH, hPL, hCH, hCL, hfit,
    hblend]

/-- Witness for C3 at `okPayload` (both baselines `0`, `clip_delta = 12`). -/
theorem blended_forecast_within_clip_band_witness :
    (∃ fh, okResult.forecast_high = some fh ∧
      0 - okPayload.config.clip_delta ≤ fh ∧ fh ≤ 0 + okPayload.config.clip_delta) ∧
    (∃ fl, okResult.forecast_low = some fl ∧
      0 - okPayload.config.clip_delta ≤ fl ∧ fl ≤ 0 + okPayload.config.clip_delta) :=
  blended_forecast_within_clip_band (fun _ : ℤ => ()) (fun _ l => l) () okPayload okResult
    0 0 runModel_okPayload_eval rfl (by norm_num [okPayload]) (by simp [okPayload])
    (by simp [okPayload])

/-- Witness for the amended C5 at `okPayload` (`sigma_floor = 1.5`). -/
theorem ok_sigma_at_least_floor_witness :
    ∃ sh sl, okResult.sigma_high = some sh ∧ okResult.sigma_low = some sl ∧
      okPayload.config.sigma_floor ≤ sh ∧ okPayload.config.sigma_floor ≤ sl :=
  ok_sigma_at_least_floor (fun _ : ℤ => ()) (fun _ l => l) () okPayload okResult
    runModel_okPayload_eval rfl

end HybridWeather
